import Mathlib

set_option linter.unusedVariables false

/-
Verification of src/jni/jni_internals.h: the signature-introspection and
dispatch-generation core of the gmloader-next JNI substitute runtime.

The embedding models argument values after the per-parameter cast as an
opaque type α: on a valid call each va_list slot and each jvalue slot holds
exactly the value of the parameter's declared type, so extraction returns
the stored value.  Side effects of the wrapped function F are modelled by
an explicit invocation trace: the list of argument tuples F was applied to,
in order.  Pointers are modelled as Option values (none is the null
pointer) or as Nat addresses where address arithmetic matters.
-/

namespace JniInternals

universe u v

/-- One step of the C variadic cursor (jni_internals.h line 55): va_arg
consumes the head slot of the remaining argument stream.  Running va_arg on
an exhausted cursor is undefined behaviour in C, modelled as none. -/
def va_arg {α : Type u} : List α → Option (α × List α)
  | [] => none
  | a :: va => some (a, va)

/-- The pack expansion (Args)va_arg(va, Args)... inside the braced
initializer of dispatch_v: brace initialization evaluates its elements
strictly left to right, so the n extractions happen in declaration order,
each consuming one slot.  Returns the extracted arguments in extraction
order together with the remaining cursor. -/
def extract_va {α : Type u} : Nat → List α → Option (List α × List α)
  | 0, va => some ([], va)
  | n + 1, va =>
    match va_arg va with
    | none => none
    | some (a, va1) =>
      match extract_va n va1 with
      | none => none
      | some (rest, va2) => some (a :: rest, va2)

/-- The cursor lambda of dispatch_a (line 64, auto get = return arr++): get
returns the current slot pointer and advances the array cursor by one; the
surrounding *((Args*)get()) then reinterprets that slot as the parameter
type, which on a valid call yields the stored value.  Reading past the end
of the packed array is undefined behaviour, modelled as none. -/
def arr_get {α : Type u} : List α → Option (α × List α)
  | [] => none
  | a :: arr => some (a, arr)

/-- The pack expansion (*((Args*)get()))... inside the braced initializer of
dispatch_a: n slot reads in left-to-right declaration order, each advancing
the array cursor exactly once. -/
def extract_arr {α : Type u} : Nat → List α → Option (List α × List α)
  | 0, arr => some ([], arr)
  | n + 1, arr =>
    match arr_get arr with
    | none => none
    | some (a, arr1) =>
      match extract_arr n arr1 with
      | none => none
      | some (rest, arr2) => some (a :: rest, arr2)

/-- BraceCall (jni_internals.h lines 38-43): a helper whose constructor
receives the fully extracted argument list and performs ret( F(args...) ),
invoking F exactly once and storing its result.  The calls field is the
observable invocation trace: the argument tuples F was applied to, in
order, which stands for the side effects F performs. -/
structure BraceCall (α : Type u) (ρ : Type v) where
  calls : List (List α)
  ret : ρ

/-- Construction of a BraceCall: a single invocation of F on the given
arguments, its result stored in ret. -/
def BraceCall.construct {α : Type u} {ρ : Type v} (F : List α → ρ)
    (args : List α) : BraceCall α ρ :=
  { calls := [args], ret := F args }

/-- BraceCallVoid (lines 45-49): the void-return variant; the constructor
performs F(args...) for its side effects and stores no result. -/
structure BraceCallVoid (α : Type u) where
  calls : List (List α)

/-- Construction of a BraceCallVoid: a single invocation of F on the given
arguments, with the result discarded. -/
def BraceCallVoid.construct {α : Type u} {ρ : Type v} (F : List α → ρ)
    (args : List α) : BraceCallVoid α :=
  { calls := [args] }

/-- dispatch_v, non-void branch (lines 52-58): the braced initializer
extracts one argument per remaining parameter of F from the va cursor, in
declaration order, then the BraceCall constructor invokes F on
(prelude..., extracted...) and its result is returned.  arity is the number
of remaining (non-prelude) parameters of F; the returned pair is F's result
together with the invocation trace. -/
def dispatch_v {α : Type u} {ρ : Type v} (F : List α → ρ) (arity : Nat)
    (pre_args : List α) (va : List α) : Option (ρ × List (List α)) :=
  match extract_va arity va with
  | none => none
  | some (args, _) =>
    let bc := BraceCall.construct F (pre_args ++ args)
    some (bc.ret, bc.calls)

/-- dispatch_v, void branch (the if constexpr branch for R = void):
constructs a BraceCallVoid and returns no value, modelled as Unit. -/
def dispatch_v_void {α : Type u} {ρ : Type v} (F : List α → ρ) (arity : Nat)
    (pre_args : List α) (va : List α) : Option (Unit × List (List α)) :=
  match extract_va arity va with
  | none => none
  | some (args, _) =>
    let bc := BraceCallVoid.construct F (pre_args ++ args)
    some ((), bc.calls)

/-- dispatch_a, non-void branch (lines 61-71): identical to dispatch_v but
reading one jvalue slot per remaining parameter through the get cursor. -/
def dispatch_a {α : Type u} {ρ : Type v} (F : List α → ρ) (arity : Nat)
    (pre_args : List α) (arr : List α) : Option (ρ × List (List α)) :=
  match extract_arr arity arr with
  | none => none
  | some (args, _) =>
    let bc := BraceCall.construct F (pre_args ++ args)
    some (bc.ret, bc.calls)

/-- dispatch_a, void branch. -/
def dispatch_a_void {α : Type u} {ρ : Type v} (F : List α → ρ) (arity : Nat)
    (pre_args : List α) (arr : List α) : Option (Unit × List (List α)) :=
  match extract_arr arity arr with
  | none => none
  | some (args, _) =>
    let bc := BraceCallVoid.construct F (pre_args ++ args)
    some ((), bc.calls)

/-- C++ types as compared by the std::is_same_v checks of the registration
templates (lines 139-140, 158-159, 177-179): type identity is equality of
this inductive; distinct constructors model distinct C++ types.  jni.h is
external to the core; only type identity matters to the checks. -/
inductive CType where
  | jnienv_ptr
  | jobject
  | jclass
  | jint
  | jfloat
  | other (n : Nat)
  deriving DecidableEq, Repr

/-- Prelude type sequence of the virtual calling shape (Register, line
135): environment handle then receiver handle. -/
def virtualPrelude : List CType := [CType.jnienv_ptr, CType.jobject]

/-- Prelude type sequence of the static calling shape (RegisterStatic,
line 154): environment handle then class handle. -/
def staticPrelude : List CType := [CType.jnienv_ptr, CType.jclass]

/-- Prelude type sequence of the non-virtual calling shape
(RegisterNonVirtual, line 173): environment, receiver, class handles. -/
def nonvirtualPrelude : List CType :=
  [CType.jnienv_ptr, CType.jobject, CType.jclass]

/-- Class descriptor (lines 103-110): classpath, classname and the byte
size of one instance.  The method and field table pointers are held by the
surrounding structures below and are not needed for addressing, so they
are elided here. -/
structure Class where
  classpath : String
  classname : String
  instance_size : Nat
  deriving DecidableEq, Repr

/-- ManagedMethod descriptor (lines 125-131) as built by the three
registration templates: owning class reference, name, signature, and the
prelude length handed to the dispatch generator, standing for the two
generated entry point addresses disp::vargs and disp::aargs. -/
structure ManagedMethod where
  clazz : Nat
  name : String
  signature : String
  prelude_len : Nat
  deriving DecidableEq, Repr

/-- Register (lines 132-149): builds a ManagedMethod for the virtual shape
with prelude (JNIEnv*, jobject).  fn_args is F's parameter type tuple as
produced by get_function_args.  The three static_asserts are build-time
checks: a failed assert rejects the program before it can run, modelled as
none; on success the descriptor is produced with the dispatch entry
points for prelude length 2. -/
def ManagedMethod.Register (fn_args : List CType) (clazz : Nat)
    (name signature : String) : Option ManagedMethod :=
  if 2 ≤ fn_args.length ∧ fn_args.get? 0 = some CType.jnienv_ptr
      ∧ fn_args.get? 1 = some CType.jobject then
    some { clazz := clazz, name := name, signature := signature,
           prelude_len := 2 }
  else none

/-- RegisterStatic (lines 151-168): the static shape, prelude
(JNIEnv*, jclass). -/
def ManagedMethod.RegisterStatic (fn_args : List CType) (clazz : Nat)
    (name signature : String) : Option ManagedMethod :=
  if 2 ≤ fn_args.length ∧ fn_args.get? 0 = some CType.jnienv_ptr
      ∧ fn_args.get? 1 = some CType.jclass then
    some { clazz := clazz, name := name, signature := signature,
           prelude_len := 2 }
  else none

/-- RegisterNonVirtual (lines 170-188): the non-virtual shape, prelude
(JNIEnv*, jobject, jclass). -/
def ManagedMethod.RegisterNonVirtual (fn_args : List CType) (clazz : Nat)
    (name signature : String) : Option ManagedMethod :=
  if 3 ≤ fn_args.length ∧ fn_args.get? 0 = some CType.jnienv_ptr
      ∧ fn_args.get? 1 = some CType.jobject
      ∧ fn_args.get? 2 = some CType.jclass then
    some { clazz := clazz, name := name, signature := signature,
           prelude_len := 3 }
  else none

/-- Layout of one data member of a C++ object type: its byte offset from
the start of the object (offsetof) and its size in bytes. -/
structure MemberLayout where
  offset : Nat
  size : Nat
  deriving DecidableEq, Repr

/-- Layout of a complete C++ object type as the C++ object model fixes it:
every member occupies at least one byte and lies entirely inside the
object, so offsetof(m) + sizeof(m) ≤ sizeof(T) and 1 ≤ sizeof(m). -/
structure ObjLayout where
  members : List MemberLayout
  size : Nat
  members_fit : ∀ m ∈ members, m.offset + m.size ≤ size
  members_pos : ∀ m ∈ members, 0 < m.size

/-- FieldId (lines 198-204): owning class reference, name, signature,
offset (a direct address for static fields, a byte offset for instance
fields) and the static/instance discriminant.  signature is Option
String; none models the null pointer. -/
structure FieldId where
  clazz : Nat
  name : String
  signature : Option String
  offset : Nat
  is_static : Bool
  deriving DecidableEq, Repr

/-- REGISTER_FIELD (lines 228-229): a designated initializer setting
clazz, name, offset and is_static; the omitted signature member of the
aggregate is value-initialized, i.e. the null pointer.  The stored offset
(uintptr_t)&(((clz*)0x0)->field) is the address the member has inside an
object placed at address 0: the member's byte offset from the start of
the object.  The member is designated by its index in the class layout;
an index outside the member table has no corresponding macro expansion. -/
def REGISTER_FIELD (L : ObjLayout) (i : Nat) (clazz : Nat)
    (name : String) : Option FieldId :=
  match L.members.get? i with
  | none => none
  | some m =>
    some { clazz := clazz, name := name, signature := none,
           offset := m.offset, is_static := false }

/-- REGISTER_STATIC_FIELD (lines 225-226): offset holds the member's
absolute process address (uintptr_t)&clz::field; signature is again
value-initialized to the null pointer. -/
def REGISTER_STATIC_FIELD (addr : Nat) (clazz : Nat)
    (name : String) : FieldId :=
  { clazz := clazz, name := name, signature := none,
    offset := addr, is_static := true }

/-- Address of a member inside an instance whose base address is base: the
C++ object model places the member at base plus its offsetof. -/
def member_addr (base : Nat) (m : MemberLayout) : Nat := base + m.offset

/-- A lookup keyed on exact string equality of the signature (spec section
6): a FieldId matches a requested signature string exactly when its
signature is non-null and its contents equal the key. -/
def fieldSigMatches (f : FieldId) (sig : String) : Bool :=
  f.signature == some sig

/-- Size of a pointer on the modelled 64-bit target, in bytes. -/
def ptr_size : Nat := 8

/-- Layout of the Object header (lines 112-116) on the modelled target:
the single member clazz, a Class pointer, placed first. -/
def objectLayout : ObjLayout where
  members := [⟨0, ptr_size⟩]
  size := ptr_size
  members_fit := by decide
  members_pos := by decide

/-- Layout of String (lines 212-219) on the modelled target: the Object
header first (the clazz pointer at offset 0), then the member str (a char
pointer); the payload area of the object begins after the header. -/
def stringLayout : ObjLayout where
  members := [⟨0, ptr_size⟩, ⟨ptr_size, ptr_size⟩]
  size := 2 * ptr_size
  members_fit := by decide
  members_pos := by decide

/-- Byte offset at which the payload area of an object extending the
Object header begins: immediately after the header, i.e. after the clazz
pointer. -/
def payload_start : Nat := objectLayout.size

/-- Offset of a member from the start of the payload area of its object. -/
def payload_offset (m : MemberLayout) : Nat := m.offset - payload_start

/-- Two Class descriptors share a registry key exactly when classpath and
classname both coincide (spec section 3: the pair is the registry key). -/
def same_key (a b : Class) : Bool :=
  a.classpath == b.classpath && a.classname == b.classname

/-- Modelled from the spec: ClassRegistry::register_class and
ClassRegistry::get_class_registry are only declared in jni_internals.h
(lines 206-210); their definitions are not part of the given source.  Spec
section 4.4: register(Class) appends a descriptor and must reject (or
otherwise flag) an attempt to register a duplicate (classpath, classname)
pair; enumerate() exposes the full ordered collection.  The registry is
the ordered list of registered descriptors; the returned Int is the status
of register_class, 0 for success and -1 for a rejected duplicate, which
leaves the registry unchanged. -/
def register_class (reg : List Class) (c : Class) : List Class × Int :=
  if reg.any (fun d => same_key d c) then (reg, -1)
  else (reg ++ [c], 0)

/-- The registry contents after a sequence of registrations starting from
reg: register_class folded over the classes in order, keeping the
registry component. -/
def register_all (reg : List Class) (cs : List Class) : List Class :=
  cs.foldl (fun r c => (register_class r c).1) reg

/-- Object (lines 112-116): the common header, a single field referencing
the owning class.  A Class pointer is modelled as Option Class, none
being the null pointer. -/
structure ObjectM where
  clazz : Option Class
  deriving DecidableEq, Repr

/-- The Object constructor (line 114), Object(Class *clz) : clazz(clz):
stores the given pointer, with no check of any kind. -/
def ObjectM.construct (clz : Option Class) : ObjectM := ⟨clz⟩

/-- ArrayObject (lines 118-123): extends Object, placing the header
first, then element class, count, element size and the data pointer
(modelled as an address). -/
structure ArrayObjectM extends ObjectM where
  instance_clazz : Option Class
  count : Nat
  element_size : Nat
  elements : Nat
  deriving DecidableEq, Repr

/-- String (lines 212-219): extends Object, placing the header first,
then the character buffer pointer (modelled as an address). -/
structure StringM extends ObjectM where
  str : Nat
  deriving DecidableEq, Repr

/-- C++ pointer types involved in the String address-of operator: the
opaque JNI string handle type, String, and Object. -/
inductive PtrType where
  | jstring_ref
  | string_t
  | object_t
  deriving DecidableEq, Repr

/-- Derived-to-base pointer adjustment of the C++ object model: a C style
cast between related class types adds the byte offset of the base
subobject inside the derived object.  String extends Object with the
header placed first, so its Object base lies at offset 0; the opaque
handle type _jstring is unrelated to both. -/
def base_offset : PtrType → PtrType → Option Nat
  | PtrType.string_t, PtrType.object_t => some 0
  | _, _ => none

/-- Semantics of a C style cast between pointer types: a cast between
related class types applies the base-subobject adjustment; a cast between
unrelated types is a reinterpretation, leaving the address unchanged. -/
def cstyle_cast (src dst : PtrType) (addr : Nat) : Nat :=
  match base_offset src dst with
  | some d => addr + d
  | none => addr

/-- The String address-of operator (line 218), String* operator&(_jstring&
jstr) returning (String*)&jstr: takes the address of the referenced
_jstring object and C style casts it to String*.  A pure address
computation: no allocation, no copy. -/
def jstring_addr_of (jstr_addr : Nat) : Nat :=
  cstyle_cast PtrType.jstring_ref PtrType.string_t jstr_addr

/-- Extraction from the variadic cursor consumes exactly the first arity
slots, in order: the extracted list is the arity-long head of the stream
and the remaining cursor is its tail. -/
theorem extract_va_eq_take {α : Type u} :
    ∀ (n : Nat) (va : List α), n ≤ va.length →
      extract_va n va = some (va.take n, va.drop n) := by
  intro n
  induction n with
  | zero => intro va h; simp [extract_va]
  | succ n ih =>
    intro va h
    match va with
    | [] => simp at h
    | a :: va =>
      have h' : n ≤ va.length := by simpa using Nat.le_of_succ_le_succ h
      simp only [extract_va, va_arg, ih va h', List.take, List.drop]

/-- Extraction from the packed array consumes exactly the first arity
slots, in order. -/
theorem extract_arr_eq_take {α : Type u} :
    ∀ (n : Nat) (arr : List α), n ≤ arr.length →
      extract_arr n arr = some (arr.take n, arr.drop n) := by
  intro n
  induction n with
  | zero => intro arr h; simp [extract_arr]
  | succ n ih =>
    intro arr h
    match arr with
    | [] => simp at h
    | a :: arr =>
      have h' : n ≤ arr.length := by simpa using Nat.le_of_succ_le_succ h
      simp only [extract_arr, arr_get, ih arr h', List.take, List.drop]

/-- Evaluation of the variadic entry point on a sufficiently long cursor. -/
theorem dispatch_v_eq {α : Type u} {ρ : Type v} (F : List α → ρ) (n : Nat)
    (pre va : List α) (h : n ≤ va.length) :
    dispatch_v F n pre va
      = some (F (pre ++ va.take n), [pre ++ va.take n]) := by
  simp [dispatch_v, extract_va_eq_take n va h, BraceCall.construct]

/-- Evaluation of the array entry point on a sufficiently long array. -/
theorem dispatch_a_eq {α : Type u} {ρ : Type v} (F : List α → ρ) (n : Nat)
    (pre arr : List α) (h : n ≤ arr.length) :
    dispatch_a F n pre arr
      = some (F (pre ++ arr.take n), [pre ++ arr.take n]) := by
  simp [dispatch_a, extract_arr_eq_take n arr h, BraceCall.construct]

/-- Evaluation of the void variadic entry point. -/
theorem dispatch_v_void_eq {α : Type u} {ρ : Type v} (F : List α → ρ)
    (n : Nat) (pre va : List α) (h : n ≤ va.length) :
    dispatch_v_void F n pre va = some ((), [pre ++ va.take n]) := by
  simp [dispatch_v_void, extract_va_eq_take n va h, BraceCallVoid.construct]

/-- Evaluation of the void array entry point. -/
theorem dispatch_a_void_eq {α : Type u} {ρ : Type v} (F : List α → ρ)
    (n : Nat) (pre arr : List α) (h : n ≤ arr.length) :
    dispatch_a_void F n pre arr = some ((), [pre ++ arr.take n]) := by
  simp [dispatch_a_void, extract_arr_eq_take n arr h, BraceCallVoid.construct]

/-- Matching the first two parameter types individually, as the
static_asserts do, is equivalent to the two-element prelude being an
exact leading segment of the parameter type list. -/
theorem take_two_eq_iff {α : Type u} (l : List α) (x y : α) :
    (2 ≤ l.length ∧ l.get? 0 = some x ∧ l.get? 1 = some y)
      ↔ l.take 2 = [x, y] := by
  match l with
  | [] => simp
  | [a] => simp
  | a :: b :: rest =>
    simp only [List.length_cons, List.get?, List.take, List.cons.injEq,
      List.take_nil, Option.some.injEq]
    constructor
    · rintro ⟨-, h0, h1⟩
      exact ⟨h0, h1, trivial⟩
    · rintro ⟨h0, h1, -⟩
      exact ⟨by omega, h0, h1⟩

/-- Matching the first three parameter types individually is equivalent to
the three-element prelude being an exact leading segment. -/
theorem take_three_eq_iff {α : Type u} (l : List α) (x y z : α) :
    (3 ≤ l.length ∧ l.get? 0 = some x ∧ l.get? 1 = some y
        ∧ l.get? 2 = some z)
      ↔ l.take 3 = [x, y, z] := by
  match l with
  | [] => simp
  | [a] => simp
  | [a, b] => simp
  | a :: b :: c :: rest =>
    simp only [List.length_cons, List.get?, List.take, List.cons.injEq,
      List.take_nil, Option.some.injEq]
    constructor
    · rintro ⟨-, h0, h1, h2⟩
      exact ⟨h0, h1, h2, trivial⟩
    · rintro ⟨h0, h1, h2, -⟩
      exact ⟨by omega, h0, h1, h2⟩

/-- C1: for a registered function with a prelude and arity remaining
parameters, each generated entry point performs exactly one extraction
per remaining parameter, strictly in left-to-right declaration order —
extraction i consumes slot i, leaving the cursor past the consumed slots
— and then invokes the wrapped function on the prelude followed by the
extracted arguments; in particular the array entry point invokes it on
the prelude followed by the packed array contents in order, never a
permutation. -/
theorem dispatch_extraction_order {α : Type u} {ρ : Type v}
    (F : List α → ρ) (arity : Nat) (pre va arr : List α)
    (hv : arity ≤ va.length) (ha : arity ≤ arr.length) :
    extract_va arity va = some (va.take arity, va.drop arity)
    ∧ extract_arr arity arr = some (arr.take arity, arr.drop arity)
    ∧ (∀ i, i < arity → (va.take arity).get? i = va.get? i)
    ∧ dispatch_v F arity pre va
        = some (F (pre ++ va.take arity), [pre ++ va.take arity])
    ∧ dispatch_a F arity pre arr
        = some (F (pre ++ arr.take arity), [pre ++ arr.take arity]) :=
  ⟨extract_va_eq_take arity va hv, extract_arr_eq_take arity arr ha,
    fun _ hi => List.get?_take hi,
    dispatch_v_eq F arity pre va hv, dispatch_a_eq F arity pre arr ha⟩

/-- Witness for C1 at a concrete three-argument call: the array entry
point on the packed array [10, 20, 30] invokes the wrapped function on
the prelude [100, 101] followed by 10, 20, 30 in exactly that order. -/
theorem dispatch_extraction_order_witness :
    dispatch_a (fun l : List Nat => l) 3 [100, 101] [10, 20, 30]
      = some ([100, 101, 10, 20, 30], [[100, 101, 10, 20, 30]]) :=
  (dispatch_extraction_order (fun l : List Nat => l) 3 [100, 101]
    [10, 20, 30] [10, 20, 30] (by decide) (by decide)).2.2.2.2

/-- C2: on the same valid argument list — one value per remaining
parameter, supplied through the variadic cursor or packed one per jvalue
slot — the two generated entry points return the same result and perform
the same single invocation of the wrapped function (hence the same side
effects), in the non-void and in the void instantiation alike. -/
theorem dispatch_v_a_equivalence {α : Type u} {ρ : Type v}
    (F : List α → ρ) (arity : Nat) (pre args : List α)
    (h : arity ≤ args.length) :
    dispatch_v F arity pre args = dispatch_a F arity pre args
    ∧ dispatch_v_void F arity pre args = dispatch_a_void F arity pre args := by
  constructor
  · rw [dispatch_v_eq F arity pre args h, dispatch_a_eq F arity pre args h]
  · rw [dispatch_v_void_eq F arity pre args h,
      dispatch_a_void_eq F arity pre args h]

/-- Witness for C2 at a concrete call: variadic and array dispatch of the
same two arguments coincide. -/
theorem dispatch_v_a_equivalence_witness :
    dispatch_v (fun l : List Nat => l.length) 2 [7] [3, 4]
      = dispatch_a (fun l : List Nat => l.length) 2 [7] [3, 4] :=
  (dispatch_v_a_equivalence (fun l : List Nat => l.length) 2 [7] [3, 4]
    (by decide)).1

/-- C3: on a valid call, every generated entry point invokes the wrapped
function exactly once (the invocation trace has length one); the non-void
entry points return the function's result unchanged, and the void entry
points return no value. -/
theorem dispatch_invokes_once {α : Type u} {ρ : Type v} (F : List α → ρ)
    (arity : Nat) (pre va arr : List α)
    (hv : arity ≤ va.length) (ha : arity ≤ arr.length) :
    (∃ r calls, dispatch_v F arity pre va = some (r, calls)
        ∧ calls.length = 1 ∧ r = F (pre ++ va.take arity))
    ∧ (∃ r calls, dispatch_a F arity pre arr = some (r, calls)
        ∧ calls.length = 1 ∧ r = F (pre ++ arr.take arity))
    ∧ (∃ calls, dispatch_v_void F arity pre va = some ((), calls)
        ∧ calls.length = 1)
    ∧ (∃ calls, dispatch_a_void F arity pre arr = some ((), calls)
        ∧ calls.length = 1) :=
  ⟨⟨_, _, dispatch_v_eq F arity pre va hv, rfl, rfl⟩,
    ⟨_, _, dispatch_a_eq F arity pre arr ha, rfl, rfl⟩,
    ⟨_, dispatch_v_void_eq F arity pre va hv, rfl⟩,
    ⟨_, dispatch_a_void_eq F arity pre arr ha, rfl⟩⟩

/-- Witness for C3 at a concrete call: the variadic entry point invokes
the wrapped function once and returns its result. -/
theorem dispatch_invokes_once_witness :
    ∃ r calls, dispatch_v (fun l : List Nat => l.length) 1 [5] [6]
      = some (r, calls) ∧ calls.length = 1 ∧ r = 2 :=
  (dispatch_invokes_once (fun l : List Nat => l.length) 1 [5] [6] [6]
    (by decide) (by decide)).1

/-- C4: each of the three registration operations succeeds exactly when
the function's parameter tuple is at least as long as the shape's prelude
and its leading parameter types exactly match the shape's prelude type
sequence in order; otherwise the static_asserts reject the program at
build time, modelled by none, so no mismatched registration can exist at
runtime. -/
theorem register_prelude_enforcement (fn_args : List CType) (clazz : Nat)
    (name signature : String) :
    ((ManagedMethod.Register fn_args clazz name signature).isSome
      ↔ virtualPrelude.length ≤ fn_args.length
        ∧ fn_args.take virtualPrelude.length = virtualPrelude)
    ∧ ((ManagedMethod.RegisterStatic fn_args clazz name signature).isSome
      ↔ staticPrelude.length ≤ fn_args.length
        ∧ fn_args.take staticPrelude.length = staticPrelude)
    ∧ ((ManagedMethod.RegisterNonVirtual fn_args clazz name signature).isSome
      ↔ nonvirtualPrelude.length ≤ fn_args.length
        ∧ fn_args.take nonvirtualPrelude.length = nonvirtualPrelude) := by
  refine ⟨?_, ?_, ?_⟩
  · unfold ManagedMethod.Register
    split
    next h =>
      simp only [Option.isSome_some, true_iff, virtualPrelude,
        List.length_cons, List.length_nil]
      exact ⟨h.1, (take_two_eq_iff fn_args _ _).mp h⟩
    next h =>
      simp only [Option.isSome_none, Bool.false_eq_true, false_iff,
        virtualPrelude, List.length_cons, List.length_nil, not_and]
      intro _ htake
      exact absurd ((take_two_eq_iff fn_args _ _).mpr htake) h
  · unfold ManagedMethod.RegisterStatic
    split
    next h =>
      simp only [Option.isSome_some, true_iff, staticPrelude,
        List.length_cons, List.length_nil]
      exact ⟨h.1, (take_two_eq_iff fn_args _ _).mp h⟩
    next h =>
      simp only [Option.isSome_none, Bool.false_eq_true, false_iff,
        staticPrelude, List.length_cons, List.length_nil, not_and]
      intro _ htake
      exact absurd ((take_two_eq_iff fn_args _ _).mpr htake) h
  · unfold ManagedMethod.RegisterNonVirtual
    split
    next h =>
      simp only [Option.isSome_some, true_iff, nonvirtualPrelude,
        List.length_cons, List.length_nil]
      exact ⟨h.1, (take_three_eq_iff fn_args _ _ _).mp h⟩
    next h =>
      simp only [Option.isSome_none, Bool.false_eq_true, false_iff,
        nonvirtualPrelude, List.length_cons, List.length_nil, not_and]
      intro _ htake
      exact absurd ((take_three_eq_iff fn_args _ _ _).mpr htake) h

/-- A field produced by REGISTER_FIELD on member index i records exactly
the designated member's offset, a null signature, and the instance
discriminant. -/
theorem REGISTER_FIELD_eq (L : ObjLayout) (i clazz : Nat) (name : String)
    (m : MemberLayout) (hm : L.members.get? i = some m) :
    REGISTER_FIELD L i clazz name
      = some { clazz := clazz, name := name, signature := none,
               offset := m.offset, is_static := false } := by
  have hm2 : L.members[i]? = some m := by
    rw [← List.get?_eq_getElem?]
    exact hm
  simp [REGISTER_FIELD, hm2]

/-- C5: a field registered with REGISTER_FIELD for member m of the class
layout, on a Class descriptor whose instance_size is the layout's size,
addresses the member at base + offset for every instance base address,
and its offset is strictly below the instance size. -/
theorem instance_field_addressing (L : ObjLayout) (i clazzRef : Nat)
    (name : String) (c : Class) (f : FieldId) (m : MemberLayout)
    (hm : L.members.get? i = some m)
    (hf : REGISTER_FIELD L i clazzRef name = some f)
    (hs : c.instance_size = L.size) :
    (∀ base : Nat, base + f.offset = member_addr base m)
    ∧ f.offset < c.instance_size := by
  rw [REGISTER_FIELD_eq L i clazzRef name m hm] at hf
  obtain rfl : _ = f := Option.some.inj hf
  have hmem : m ∈ L.members := List.get?_mem hm
  refine ⟨fun base => rfl, ?_⟩
  have h1 := L.members_fit m hmem
  have h2 := L.members_pos m hmem
  simp only [hs]
  omega

/-- Witness for C5 on the modelled String layout: the field registered for
the member str (offset 8) addresses it at base + 8 for every base, and
8 is below the instance size 16. -/
theorem instance_field_addressing_witness :
    (∀ base : Nat, base + (FieldId.mk 0 "str" none 8 false).offset
      = member_addr base ⟨8, 8⟩)
    ∧ (FieldId.mk 0 "str" none 8 false).offset
      < (Class.mk "gmloader" "String" 16).instance_size :=
  instance_field_addressing stringLayout 1 0 "str"
    (Class.mk "gmloader" "String" 16) (FieldId.mk 0 "str" none 8 false)
    ⟨8, 8⟩ (by decide) (by decide) (by decide)

/-- C6 counterexample: on the String layout, whose payload area begins
after the Object header, REGISTER_FIELD on the member str stores the
offset 8 measured from the start of the object, while the offset of str
from the start of the payload area is 0, and the two differ. -/
theorem field_offset_payload_cex :
    (REGISTER_FIELD stringLayout 1 0 "str").map FieldId.offset = some 8
    ∧ payload_offset ⟨8, 8⟩ = 0 ∧ (8 : Nat) ≠ 0 := by decide

/-- C6 amended: the value stored by REGISTER_FIELD is the byte offset of
the member from the start of the object itself, Object header included;
for a member lying in the payload area it equals the payload start plus
the member's payload offset, not the payload offset alone. -/
theorem field_offset_from_object_start (L : ObjLayout) (i clazzRef : Nat)
    (name : String) (m : MemberLayout) (f : FieldId)
    (hm : L.members.get? i = some m)
    (hf : REGISTER_FIELD L i clazzRef name = some f) :
    f.offset = m.offset
    ∧ (payload_start ≤ m.offset →
        f.offset = payload_start + payload_offset m) := by
  rw [REGISTER_FIELD_eq L i clazzRef name m hm] at hf
  obtain rfl : _ = f := Option.some.inj hf
  refine ⟨rfl, fun hp => ?_⟩
  simp only [payload_offset]
  omega

/-- Witness for the amended C6 on the String layout: the stored offset of
str is its offset 8 from the object start, which is the payload start 8
plus its payload offset 0. -/
theorem field_offset_from_object_start_witness :
    (FieldId.mk 0 "str" none 8 false).offset = (⟨8, 8⟩ : MemberLayout).offset
    ∧ (payload_start ≤ (⟨8, 8⟩ : MemberLayout).offset →
        (FieldId.mk 0 "str" none 8 false).offset
          = payload_start + payload_offset ⟨8, 8⟩) :=
  field_offset_from_object_start stringLayout 1 0 "str" ⟨8, 8⟩
    (FieldId.mk 0 "str" none 8 false) (by decide) (by decide)

/-- Registering a list of classes whose keys are fresh for the current
registry and pairwise distinct appends them, in order. -/
theorem register_all_fresh (cs : List Class) : ∀ reg : List Class,
    (∀ c ∈ cs, ∀ d ∈ reg, same_key d c = false) →
    cs.Pairwise (fun a b => same_key a b = false) →
    register_all reg cs = reg ++ cs := by
  induction cs with
  | nil => intro reg _ _; simp [register_all]
  | cons c cs ih =>
    intro reg hfresh hpw
    obtain ⟨hhead, htail⟩ := List.pairwise_cons.mp hpw
    have hany : (reg.any fun d => same_key d c) = false := by
      rw [List.any_eq_false]
      intro d hd
      simp [hfresh c (List.mem_cons_self c cs) d hd]
    have hstep : (register_class reg c).1 = reg ++ [c] := by
      simp [register_class, hany]
    have hfresh2 : ∀ c2 ∈ cs, ∀ d ∈ reg ++ [c], same_key d c2 = false := by
      intro c2 hc2 d hd
      rcases List.mem_append.mp hd with h | h
      · exact hfresh c2 (List.mem_cons_of_mem c hc2) d h
      · obtain rfl := List.mem_singleton.mp h
        exact hhead c2 hc2
    calc register_all reg (c :: cs)
        = register_all (reg ++ [c]) cs := by
          simp only [register_all, List.foldl_cons, hstep]
      _ = (reg ++ [c]) ++ cs := ih (reg ++ [c]) hfresh2 htail
      _ = reg ++ c :: cs := by simp

/-- C7: register_class rejects a second descriptor whose (classpath,
classname) pair is already registered, flagging the failure and leaving
the registry unchanged, and registering N pairwise-distinct classes into
the empty registry makes the enumeration yield exactly those N entries in
registration order. -/
theorem class_registry_semantics :
    (∀ (reg : List Class) (c : Class),
        (∃ d ∈ reg, same_key d c = true) →
        register_class reg c = (reg, -1))
    ∧ (∀ cs : List Class,
        cs.Pairwise (fun a b => same_key a b = false) →
        register_all [] cs = cs
          ∧ (register_all [] cs).length = cs.length) := by
  constructor
  · rintro reg c ⟨d, hd, hkey⟩
    have hany : (reg.any fun d => same_key d c) = true :=
      List.any_eq_true.mpr ⟨d, hd, hkey⟩
    simp [register_class, hany]
  · intro cs hpw
    have h := register_all_fresh cs []
      (by intro c _ d hd; simp at hd) hpw
    rw [List.nil_append] at h
    exact ⟨h, by rw [h]⟩

/-- Witness for C7: a duplicate (classpath, classname) pair is rejected
with status -1 and no registry change, and two distinct classes
registered into the empty registry enumerate as exactly those two, in
order. -/
theorem class_registry_semantics_witness :
    register_class [Class.mk "com/app" "Main" 16] (Class.mk "com/app" "Main" 24)
      = ([Class.mk "com/app" "Main" 16], -1)
    ∧ register_all []
        [Class.mk "com/app" "Main" 16, Class.mk "com/app" "Other" 24]
      = [Class.mk "com/app" "Main" 16, Class.mk "com/app" "Other" 24] :=
  ⟨class_registry_semantics.1 [Class.mk "com/app" "Main" 16]
      (Class.mk "com/app" "Main" 24)
      ⟨Class.mk "com/app" "Main" 16, by decide, by decide⟩,
    (class_registry_semantics.2
      [Class.mk "com/app" "Main" 16, Class.mk "com/app" "Other" 24]
      (by decide)).1⟩

/-- C8 counterexample: the Object constructor stores its argument with no
check, so constructing an Object with the null Class pointer yields an
object whose clazz is null — the claimed unconditional invariant already
fails immediately after this construction. -/
theorem object_clazz_cex :
    (ObjectM.construct none).clazz = none
    ∧ ¬ (ObjectM.construct none).clazz ≠ none :=
  ⟨rfl, fun h => h rfl⟩

/-- C8 amended: construction stores exactly the supplied Class pointer
and never alters it; consequently, whenever an Object is constructed with
a non-null pointer to a registered Class — as the registration protocol
prescribes — its clazz is non-null and refers to a registry entry. -/
theorem object_clazz_invariant (clz : Option Class) (reg : List Class)
    (h : ∃ c, clz = some c ∧ c ∈ reg) :
    (ObjectM.construct clz).clazz = clz
    ∧ (ObjectM.construct clz).clazz ≠ none
    ∧ ∃ c, (ObjectM.construct clz).clazz = some c ∧ c ∈ reg := by
  obtain ⟨c, rfl, hc⟩ := h
  exact ⟨rfl, by simp [ObjectM.construct], ⟨c, rfl, hc⟩⟩

/-- Witness for the amended C8: an Object constructed with a registered
Class keeps that pointer, which is non-null and in the registry. -/
theorem object_clazz_invariant_witness :
    (ObjectM.construct (some (Class.mk "com/app" "Main" 16))).clazz
      = some (Class.mk "com/app" "Main" 16)
    ∧ (ObjectM.construct (some (Class.mk "com/app" "Main" 16))).clazz ≠ none
    ∧ ∃ c, (ObjectM.construct (some (Class.mk "com/app" "Main" 16))).clazz
        = some c ∧ c ∈ [Class.mk "com/app" "Main" 16] :=
  object_clazz_invariant (some (Class.mk "com/app" "Main" 16))
    [Class.mk "com/app" "Main" 16]
    ⟨Class.mk "com/app" "Main" 16, rfl, by decide⟩

/-- C9: every FieldId produced by the two registration macros has a null
signature — the designated initializers omit that member, which is
value-initialized — so a lookup keyed on exact string equality of the
signature never matches such a field. -/
theorem macro_field_signature_null (L : ObjLayout) (i clazzRef : Nat)
    (name : String) (f : FieldId)
    (hf : REGISTER_FIELD L i clazzRef name = some f)
    (addr sclazz : Nat) (sname : String) :
    f.signature = none
    ∧ (∀ sig, fieldSigMatches f sig = false)
    ∧ (REGISTER_STATIC_FIELD addr sclazz sname).signature = none
    ∧ (∀ sig, fieldSigMatches (REGISTER_STATIC_FIELD addr sclazz sname) sig
        = false) := by
  have hsig : f.signature = none := by
    cases hm : L.members.get? i with
    | none =>
      have hm2 : L.members[i]? = none := by
        rw [← List.get?_eq_getElem?]
        exact hm
      simp [REGISTER_FIELD, hm2] at hf
    | some m =>
      rw [REGISTER_FIELD_eq L i clazzRef name m hm] at hf
      obtain rfl : _ = f := Option.some.inj hf
      rfl
  refine ⟨hsig, fun sig => ?_, rfl, fun sig => rfl⟩
  rw [fieldSigMatches, hsig]
  rfl

/-- Witness for C9: the field registered for str on the String layout and
a static field registered at address 4096 both carry a null signature and
match no signature key, here the key LString2. -/
theorem macro_field_signature_null_witness :
    (FieldId.mk 0 "str" none 8 false).signature = none
    ∧ (∀ sig, fieldSigMatches (FieldId.mk 0 "str" none 8 false) sig = false)
    ∧ (REGISTER_STATIC_FIELD 4096 0 "counter").signature = none
    ∧ (∀ sig, fieldSigMatches (REGISTER_STATIC_FIELD 4096 0 "counter") sig
        = false) :=
  macro_field_signature_null stringLayout 1 0 "str"
    (FieldId.mk 0 "str" none 8 false) (by decide) 4096 0 "counter"

/-- C10: the overloaded address-of operator on a _jstring reference
returns a String pointer holding exactly the address of the referenced
object: _jstring is unrelated to String, so the C style cast is an
address-preserving reinterpretation with no base-subobject adjustment,
and the operator is a pure address computation with no allocation or
copy. -/
theorem jstring_addr_preserving (jstr_addr : Nat) :
    jstring_addr_of jstr_addr = jstr_addr := rfl

end JniInternals
